import Mathlib

/-!
Verification development for the ellipsoid fitting routine in
`src/ellipsoid_fit/fit.cpp` (namespace `ellipsoid`, function `fit`).

The C++ routine is a straight-line numerical pipeline over `double`s:
design-matrix construction, a normal-equation least-squares solve via
the Eigen `bdcSvd` solve, back-substitution to the 10-coefficient quadric,
4×4 quadric-matrix assembly, a 3×3 center solve, a translation
congruence, a 3×3 eigendecomposition, canonicalization through the
external `eigenOrder::leastRotationAngle`, and the radii computation
`eval.cwiseInverse().cwiseSqrt()`.

The embedding models `double` arithmetic with exact reals, except in the
final radii step where IEEE special values (±∞, NaN) are the point of the
computation: there a dedicated `XReal` type mirrors IEEE behaviour, with
the real number `0` modelling `+0.0`.  The three numeric kernels that are
library/external code (the Eigen `bdcSvd(...).solve`, `Eigen::EigenSolver`
followed by `.real()`, and `eigenOrder::leastRotationAngle`, whose source
is not part of this repository) are abstracted as the fields of a
`Kernels` structure; every theorem quantifies over them.
-/

namespace Ellipsoid

/-- A 3D point: one row of the `N×3` data matrix (fit.cpp lines 47-49
reads the three columns `x`, `y`, `z`). -/
structure Point3 where
  x : ℝ
  y : ℝ
  z : ℝ

/-- The `ellipsoid::EllipsoidType` enumeration selecting the fitted
parameterization variant (switched on at fit.cpp lines 61 and 142). -/
inductive EllipsoidType where
  | Arbitrary
  | XYEqual
  | XZEqual
  | Sphere
  | Aligned
  | AlignedXYEqual
  | AlignedXZEqual
deriving DecidableEq

/-- Number of columns of the design matrix `D` for each variant: the
argument of `D.resize(data.rows(), ·)` in fit.cpp lines 63, 75, 86, 97,
104, 113, 121. -/
def numColumns : EllipsoidType → ℕ
  | .Arbitrary => 9
  | .XYEqual => 8
  | .XZEqual => 8
  | .Sphere => 4
  | .Aligned => 6
  | .AlignedXYEqual => 5
  | .AlignedXZEqual => 5

/-- One row of the design matrix `D`, read off column-wise from the
`switch (type)` of fit.cpp lines 61-128 (`x_sq` is `x.cwiseProduct(x)`
etc., lines 51-53; `D.col(j)` gives entry `j` of each row). -/
def designRow (t : EllipsoidType) (p : Point3) : List ℝ :=
  let x_sq := p.x * p.x
  let y_sq := p.y * p.y
  let z_sq := p.z * p.z
  match t with
  | .Arbitrary =>
      [x_sq + y_sq - 2 * z_sq, x_sq + z_sq - 2 * y_sq,
       2 * (p.x * p.y), 2 * (p.x * p.z), 2 * (p.y * p.z),
       2 * p.x, 2 * p.y, 2 * p.z, 1]
  | .XYEqual =>
      [x_sq + y_sq - 2 * z_sq,
       2 * (p.x * p.y), 2 * (p.x * p.z), 2 * (p.y * p.z),
       2 * p.x, 2 * p.y, 2 * p.z, 1]
  | .XZEqual =>
      [x_sq + z_sq - 2 * y_sq,
       2 * (p.x * p.y), 2 * (p.x * p.z), 2 * (p.y * p.z),
       2 * p.x, 2 * p.y, 2 * p.z, 1]
  | .Sphere =>
      [2 * p.x, 2 * p.y, 2 * p.z, 1]
  | .Aligned =>
      [x_sq + y_sq - 2 * z_sq, x_sq + z_sq - 2 * y_sq,
       2 * p.x, 2 * p.y, 2 * p.z, 1]
  | .AlignedXYEqual =>
      [x_sq + y_sq - 2 * z_sq, 2 * p.x, 2 * p.y, 2 * p.z, 1]
  | .AlignedXZEqual =>
      [x_sq + z_sq - 2 * y_sq, 2 * p.x, 2 * p.y, 2 * p.z, 1]

/-- The `N×k` design matrix `D` of fit.cpp lines 60-128, with the data
given as a list of points (one per row). -/
def designMatrix (t : EllipsoidType) (pts : List Point3) :
    Matrix (Fin pts.length) (Fin (numColumns t)) ℝ :=
  Matrix.of fun i j => (designRow t (pts.get i)).getD j 0

/-- The right-hand side `d2 = x_sq + y_sq + z_sq` of the least-squares
problem (fit.cpp line 131). -/
def d2vec (pts : List Point3) : Fin pts.length → ℝ :=
  fun i => (pts.get i).x * (pts.get i).x + (pts.get i).y * (pts.get i).y +
    (pts.get i).z * (pts.get i).z

/-- The matrix `D.transpose() * D` of the normal equations
(fit.cpp line 132). -/
def gramMatrix (t : EllipsoidType) (pts : List Point3) :
    Matrix (Fin (numColumns t)) (Fin (numColumns t)) ℝ :=
  (designMatrix t pts).transpose * designMatrix t pts

/-- The right-hand side `D.transpose() * d2` of the normal equations
(fit.cpp line 134). -/
def normalRhs (t : EllipsoidType) (pts : List Point3) :
    Fin (numColumns t) → ℝ :=
  (designMatrix t pts).transpose.mulVec (d2vec pts)

/-- Reading a `k`-vector at a natural index, as the C++ code reads
`u(0)`, `u.segment<7>(2)`, ... (all accesses are in range; out-of-range
reads never occur and are mapped to 0). -/
def uEntry {k : ℕ} (u : Fin k → ℝ) (n : ℕ) : ℝ :=
  if h : n < k then u ⟨n, h⟩ else 0

/-- Back-substitution from the reduced least-squares solution `u` to the
full 10-entry quadric coefficient vector `v`: the `switch (type)` of
fit.cpp lines 141-187, entry by entry (`v.segment<7>(3) = u.segment<7>(2)`
copies `u(2)..u(8)` into `v(3)..v(9)`, and similarly for the others). -/
def backSubstitute (t : EllipsoidType) (u : ℕ → ℝ) : Fin 10 → ℝ :=
  match t with
  | .Arbitrary =>
      ![u 0 + u 1 - 1, u 0 - 2 * u 1 - 1, u 1 - 2 * u 0 - 1,
        u 2, u 3, u 4, u 5, u 6, u 7, u 8]
  | .XYEqual =>
      ![u 0 - 1, u 0 - 1, -2 * u 0 - 1,
        u 1, u 2, u 3, u 4, u 5, u 6, u 7]
  | .XZEqual =>
      ![u 0 - 1, -2 * u 0 - 1, u 0 - 1,
        u 1, u 2, u 3, u 4, u 5, u 6, u 7]
  | .Sphere =>
      ![-1, -1, -1, 0, 0, 0, u 0, u 1, u 2, u 3]
  | .Aligned =>
      ![u 0 + u 1 - 1, u 0 - 2 * u 1 - 1, u 1 - 2 * u 0 - 1,
        0, 0, 0, u 2, u 3, u 4, u 5]
  | .AlignedXYEqual =>
      ![u 0 - 1, u 0 - 1, -2 * u 0 - 1, 0, 0, 0, u 1, u 2, u 3, u 4]
  | .AlignedXZEqual =>
      ![u 0 - 1, -2 * u 0 - 1, u 0 - 1, 0, 0, 0, u 1, u 2, u 3, u 4]

/-- The symmetric 4×4 algebraic form `A` of the ellipsoid, assembled from
`v` row by row exactly as the comma-initializer of fit.cpp lines 190-192. -/
def quadricMatrix (v : Fin 10 → ℝ) : Matrix (Fin 4) (Fin 4) ℝ :=
  Matrix.of
    ![![v 0, v 3, v 4, v 6],
      ![v 3, v 1, v 5, v 7],
      ![v 4, v 5, v 2, v 8],
      ![v 6, v 7, v 8, v 9]]

/-- The upper-left 3×3 block `M.block<3,3>(0,0)` of a 4×4 matrix. -/
def quadBlock (M : Matrix (Fin 4) (Fin 4) ℝ) : Matrix (Fin 3) (Fin 3) ℝ :=
  Matrix.of fun i j => M i.castSucc j.castSucc

/-- The linear-term triple `v.segment<3>(6)` used by the center solve
(fit.cpp line 197). -/
def linTriple (v : Fin 10 → ℝ) : Fin 3 → ℝ := ![v 6, v 7, v 8]

/-- The 4×4 translation matrix `T` of fit.cpp lines 199-200: the identity
with the center written into the first three entries of the last row
(`T.block<1, 3>(3, 0) = params.center.transpose()`). -/
def translationMatrix (c : Fin 3 → ℝ) : Matrix (Fin 4) (Fin 4) ℝ :=
  Matrix.of
    ![![1, 0, 0, 0],
      ![0, 1, 0, 0],
      ![0, 0, 1, 0],
      ![c 0, c 1, c 2, 1]]

/-- The translated quadric `R = T * A * T.transpose()` of fit.cpp
line 202. -/
def centeredQuadric (v : Fin 10 → ℝ) (c : Fin 3 → ℝ) :
    Matrix (Fin 4) (Fin 4) ℝ :=
  translationMatrix c * quadricMatrix v * (translationMatrix c).transpose

noncomputable section

/-- IEEE-like value of a `double` computation: a finite real, an
infinity, or NaN.  The finite case models an exact real; the real `0`
models IEEE `+0.0`. -/
inductive XReal where
  | finite (x : ℝ)
  | posInf
  | negInf
  | nan

/-- IEEE reciprocal of a finite double, as applied elementwise by
`eval.cwiseInverse()` (fit.cpp line 210): `1/x` for `x ≠ 0` and `+∞` at
`+0.0` (modelled by the real `0`). -/
def ieeeInv (x : ℝ) : XReal :=
  if x = 0 then XReal.posInf else XReal.finite x⁻¹

/-- IEEE square root, as applied elementwise by `.cwiseSqrt()`
(fit.cpp line 210): NaN on negative inputs and on NaN, `+∞` at `+∞`. -/
def ieeeSqrt : XReal → XReal
  | XReal.finite x => if x < 0 then XReal.nan else XReal.finite (Real.sqrt x)
  | XReal.posInf => XReal.posInf
  | XReal.negInf => XReal.nan
  | XReal.nan => XReal.nan

/-- The per-axis radius computation
`params.radii = eval.cwiseInverse().cwiseSqrt()` of fit.cpp line 210,
applied to one canonicalized eigenvalue. -/
def radiusOf (lam : ℝ) : XReal := ieeeSqrt (ieeeInv lam)

/-- The numeric kernels that `fit` delegates to and that are library or
external code, not part of the sources of this repository: `svdSolve` is
`bdcSvd(ComputeFullU | ComputeFullV).solve` on a square matrix (used at
fit.cpp lines 132-135 and 195-197), `eigSolve` is
`Eigen::EigenSolver<Matrix3d>` followed by `.eigenvalues().real()` and
`.eigenvectors().real()` (lines 204-206), and `order` is
`eigenOrder::leastRotationAngle` (line 208, in-place in C++, returned as
a pair here). -/
structure Kernels where
  svdSolve : (k : ℕ) → Matrix (Fin k) (Fin k) ℝ → (Fin k → ℝ) → (Fin k → ℝ)
  eigSolve : Matrix (Fin 3) (Fin 3) ℝ → (Fin 3 → ℝ) × Matrix (Fin 3) (Fin 3) ℝ
  order : (Fin 3 → ℝ) → Matrix (Fin 3) (Fin 3) ℝ →
    (Fin 3 → ℝ) × Matrix (Fin 3) (Fin 3) ℝ

/-- The least-squares solution `u` of fit.cpp lines 132-135:
`(D.transpose() * D).bdcSvd(...).solve(D.transpose() * d2)`. -/
def fitU (K : Kernels) (pts : List Point3) (t : EllipsoidType) :
    Fin (numColumns t) → ℝ :=
  K.svdSolve (numColumns t) (gramMatrix t pts) (normalRhs t pts)

/-- The full quadric coefficient vector `v` of fit.cpp lines 141-187. -/
def fitV (K : Kernels) (pts : List Point3) (t : EllipsoidType) :
    Fin 10 → ℝ :=
  backSubstitute t (uEntry (fitU K pts t))

/-- The fitted center of fit.cpp lines 195-197:
`-A.block<3,3>(0,0).bdcSvd(...).solve(v.segment<3>(6))`. -/
def fitCenter (K : Kernels) (pts : List Point3) (t : EllipsoidType) :
    Fin 3 → ℝ :=
  fun i =>
    -(K.svdSolve 3 (quadBlock (quadricMatrix (fitV K pts t)))
      (linTriple (fitV K pts t)) i)

/-- The translated quadric `R` of fit.cpp line 202, inside the fit. -/
def fitR (K : Kernels) (pts : List Point3) (t : EllipsoidType) :
    Matrix (Fin 4) (Fin 4) ℝ :=
  centeredQuadric (fitV K pts t) (fitCenter K pts t)

/-- The matrix `R.block<3, 3>(0, 0) / -R(3, 3)` handed to the
eigendecomposition (fit.cpp line 204). -/
def fitEigInput (K : Kernels) (pts : List Point3) (t : EllipsoidType) :
    Matrix (Fin 3) (Fin 3) ℝ :=
  Matrix.of fun i j =>
    fitR K pts t i.castSucc j.castSucc / (-(fitR K pts t 3 3))

/-- The raw (un-canonicalized) eigenvalues and eigenvector columns of
fit.cpp lines 204-206. -/
def fitRawEigen (K : Kernels) (pts : List Point3) (t : EllipsoidType) :
    (Fin 3 → ℝ) × Matrix (Fin 3) (Fin 3) ℝ :=
  K.eigSolve (fitEigInput K pts t)

/-- The canonicalized eigenvalues and eigenvector columns after
`eigenOrder::leastRotationAngle(eval, evec_column)` (fit.cpp line 208). -/
def fitOrdered (K : Kernels) (pts : List Point3) (t : EllipsoidType) :
    (Fin 3 → ℝ) × Matrix (Fin 3) (Fin 3) ℝ :=
  K.order (fitRawEigen K pts t).1 (fitRawEigen K pts t).2

/-- The canonicalized eigenvalue vector `eval` as of fit.cpp line 210. -/
def fitEval (K : Kernels) (pts : List Point3) (t : EllipsoidType) :
    Fin 3 → ℝ :=
  (fitOrdered K pts t).1

/-- The canonicalized eigenvector matrix `evec_column` as of fit.cpp
line 224. -/
def fitEvec (K : Kernels) (pts : List Point3) (t : EllipsoidType) :
    Matrix (Fin 3) (Fin 3) ℝ :=
  (fitOrdered K pts t).2

/-- The radii vector `params.radii` of fit.cpp line 210. -/
def fitRadii (K : Kernels) (pts : List Point3) (t : EllipsoidType) :
    Fin 3 → XReal :=
  fun i => radiusOf (fitEval K pts t i)

/-- The `ellipsoid::Parameters` result struct: center and radii. -/
structure Parameters where
  center : Fin 3 → ℝ
  radii : Fin 3 → XReal

/-- Everything the full four-pointer overload of `fit` (fit.cpp
lines 41-228) produces: the returned `Parameters` plus the three optional
outputs `*coefficients_p = v`, `*eval_p = eval`,
`*evec_column_p = evec_column` (lines 213-225), modelled as always
present since a non-null pointer receives exactly these values. -/
structure FitOutput where
  params : Parameters
  coefficients : Fin 10 → ℝ
  eigenvalues : Fin 3 → ℝ
  eigenvectors : Matrix (Fin 3) (Fin 3) ℝ

/-- The full `fit` pipeline of fit.cpp lines 41-228. -/
def fitFull (K : Kernels) (pts : List Point3) (t : EllipsoidType) :
    FitOutput where
  params :=
    { center := fitCenter K pts t
      radii := fitRadii K pts t }
  coefficients := fitV K pts t
  eigenvalues := fitEval K pts t
  eigenvectors := fitEvec K pts t

/-- The two-argument overload `fit(data, type)` (fit.cpp lines 24-27),
which forwards with all output pointers null and returns only the
`Parameters`. -/
def fit (K : Kernels) (pts : List Point3) (t : EllipsoidType) :
    Parameters :=
  (fitFull K pts t).params

/-- Squared Euclidean residual of a candidate solution `u` of the linear
system `M u = b`. -/
def residSq {k : ℕ} (M : Matrix (Fin k) (Fin k) ℝ) (b u : Fin k → ℝ) : ℝ :=
  ∑ i, (M.mulVec u i - b i) ^ 2

/-- Squared Euclidean norm of a vector. -/
def normSq {k : ℕ} (u : Fin k → ℝ) : ℝ := ∑ i, u i ^ 2

/-- Predicate: `u` is a least-squares solution of `M u = b`, minimizing the
residual over all candidate vectors. -/
def IsLeastSquares {k : ℕ} (M : Matrix (Fin k) (Fin k) ℝ)
    (b u : Fin k → ℝ) : Prop :=
  ∀ w, residSq M b u ≤ residSq M b w

/-- Predicate: `u` is the minimum-norm least-squares solution of `M u = b`, the
exact-arithmetic contract of an SVD-based solve such as the Eigen
`bdcSvd(ComputeFullU | ComputeFullV).solve`, which stays well defined on
rank-deficient systems. -/
def IsMinNormLS {k : ℕ} (M : Matrix (Fin k) (Fin k) ℝ)
    (b u : Fin k → ℝ) : Prop :=
  IsLeastSquares M b u ∧ ∀ w, IsLeastSquares M b w → normSq u ≤ normSq w

/-- A concrete one-point data set (the origin), used to evaluate the
theorems on explicit inputs. -/
def witPts : List Point3 := [⟨0, 0, 0⟩]

/-- Concrete kernels for evaluation: the SVD solver returns the zero
vector (the minimum-norm least-squares solution whenever the right-hand
side is zero, as it is for `witPts`), the eigensolver returns the exact
eigensystem `(0, 0, 0), I` of the zero matrix, and the orderer keeps the
already-canonical identity eigenbasis unchanged. -/
def witKernels : Kernels where
  svdSolve := fun _ _ _ => fun _ => 0
  eigSolve := fun _ => (fun _ => 0, 1)
  order := fun e m => (e, m)

/-- Concrete kernels for evaluation whose eigensolver reports the
eigenvalue `1` on every axis with the identity eigenbasis. -/
def witKernelsOne : Kernels where
  svdSolve := fun _ _ _ => fun _ => 0
  eigSolve := fun _ => (fun _ => 1, 1)
  order := fun e m => (e, m)

/-- C3: for every variant and every reduced least-squares solution `u`,
the back-substituted 10-entry quadric coefficient vector `v` is fully
populated (every one of its 10 entries is a defined real) and its three
quadratic-term coefficients satisfy `v 0 + v 1 + v 2 = A + B + C = -3`. -/
theorem backSubstitute_quadratic_sum (t : EllipsoidType) (u : ℕ → ℝ) :
    (∀ i : Fin 10, ∃ r : ℝ, backSubstitute t u i = r)
    ∧ backSubstitute t u 0 + backSubstitute t u 1 + backSubstitute t u 2 = -3 := by
  refine ⟨fun i => ⟨backSubstitute t u i, rfl⟩, ?_⟩
  cases t <;> simp [backSubstitute] <;> ring

/-- C5: for every reduced solution `u`, the back-substituted coefficient
vector satisfies the symmetry constraints of the selected variant: `XYEqual`
gives `A = B`, `XZEqual` gives `A = C`, `Sphere` gives `A = B = C` with
all three cross terms zero, and the three aligned variants zero all
three cross terms `v 3`, `v 4`, `v 5`. -/
theorem backSubstitute_symmetry (u : ℕ → ℝ) :
    backSubstitute EllipsoidType.XYEqual u 0 = backSubstitute EllipsoidType.XYEqual u 1
    ∧ backSubstitute EllipsoidType.XZEqual u 0 = backSubstitute EllipsoidType.XZEqual u 2
    ∧ (backSubstitute EllipsoidType.Sphere u 0 = backSubstitute EllipsoidType.Sphere u 1
      ∧ backSubstitute EllipsoidType.Sphere u 1 = backSubstitute EllipsoidType.Sphere u 2
      ∧ backSubstitute EllipsoidType.Sphere u 3 = 0
      ∧ backSubstitute EllipsoidType.Sphere u 4 = 0
      ∧ backSubstitute EllipsoidType.Sphere u 5 = 0)
    ∧ (backSubstitute EllipsoidType.Aligned u 3 = 0
      ∧ backSubstitute EllipsoidType.Aligned u 4 = 0
      ∧ backSubstitute EllipsoidType.Aligned u 5 = 0)
    ∧ (backSubstitute EllipsoidType.AlignedXYEqual u 3 = 0
      ∧ backSubstitute EllipsoidType.AlignedXYEqual u 4 = 0
      ∧ backSubstitute EllipsoidType.AlignedXYEqual u 5 = 0)
    ∧ (backSubstitute EllipsoidType.AlignedXZEqual u 3 = 0
      ∧ backSubstitute EllipsoidType.AlignedXZEqual u 4 = 0
      ∧ backSubstitute EllipsoidType.AlignedXZEqual u 5 = 0) := by
  refine ⟨rfl, rfl, ⟨rfl, rfl, rfl, rfl, rfl⟩, ⟨rfl, rfl, rfl⟩, ⟨rfl, rfl, rfl⟩,
    ⟨rfl, rfl, rfl⟩⟩

/-- C4: for every input point, the design-matrix row of the variants
`Arbitrary`, `XYEqual`, `XZEqual`, `Sphere`, `Aligned`, `AlignedXYEqual`,
`AlignedXZEqual` has exactly 9, 8, 8, 4, 6, 5, 5 entries respectively,
each design-matrix entry comes from the row of the corresponding point,
and every row is the fixed per-variant layout of squared and raw coordinates:
asymmetric combinations such as `x²+y²−2z²`, doubled cross and linear
terms, and a trailing constant `1`. -/
theorem designRow_layout (t : EllipsoidType) (pts : List Point3) (p : Point3) :
    (designRow t p).length = numColumns t
    ∧ numColumns EllipsoidType.Arbitrary = 9
    ∧ numColumns EllipsoidType.XYEqual = 8
    ∧ numColumns EllipsoidType.XZEqual = 8
    ∧ numColumns EllipsoidType.Sphere = 4
    ∧ numColumns EllipsoidType.Aligned = 6
    ∧ numColumns EllipsoidType.AlignedXYEqual = 5
    ∧ numColumns EllipsoidType.AlignedXZEqual = 5
    ∧ (∀ i j, designMatrix t pts i j = (designRow t (pts.get i)).getD j 0)
    ∧ designRow EllipsoidType.Arbitrary p =
        [p.x ^ 2 + p.y ^ 2 - 2 * p.z ^ 2, p.x ^ 2 + p.z ^ 2 - 2 * p.y ^ 2,
         2 * p.x * p.y, 2 * p.x * p.z, 2 * p.y * p.z, 2 * p.x, 2 * p.y,
         2 * p.z, 1]
    ∧ designRow EllipsoidType.XYEqual p =
        [p.x ^ 2 + p.y ^ 2 - 2 * p.z ^ 2, 2 * p.x * p.y, 2 * p.x * p.z,
         2 * p.y * p.z, 2 * p.x, 2 * p.y, 2 * p.z, 1]
    ∧ designRow EllipsoidType.XZEqual p =
        [p.x ^ 2 + p.z ^ 2 - 2 * p.y ^ 2, 2 * p.x * p.y, 2 * p.x * p.z,
         2 * p.y * p.z, 2 * p.x, 2 * p.y, 2 * p.z, 1]
    ∧ designRow EllipsoidType.Sphere p = [2 * p.x, 2 * p.y, 2 * p.z, 1]
    ∧ designRow EllipsoidType.Aligned p =
        [p.x ^ 2 + p.y ^ 2 - 2 * p.z ^ 2, p.x ^ 2 + p.z ^ 2 - 2 * p.y ^ 2,
         2 * p.x, 2 * p.y, 2 * p.z, 1]
    ∧ designRow EllipsoidType.AlignedXYEqual p =
        [p.x ^ 2 + p.y ^ 2 - 2 * p.z ^ 2, 2 * p.x, 2 * p.y, 2 * p.z, 1]
    ∧ designRow EllipsoidType.AlignedXZEqual p =
        [p.x ^ 2 + p.z ^ 2 - 2 * p.y ^ 2, 2 * p.x, 2 * p.y, 2 * p.z, 1] := by
  refine ⟨by cases t <;> rfl, rfl, rfl, rfl, rfl, rfl, rfl, rfl,
    fun i j => rfl, ?_, ?_, ?_, rfl, ?_, ?_, ?_⟩ <;>
    simp only [designRow, List.cons.injEq, and_true] <;> and_intros <;> ring

/-- C7: the 4×4 quadric matrix assembled from the 10-coefficient vector
`v` represents the quadric `Ax²+By²+Cz²+2Dxy+2Exz+2Fyz+2Gx+2Hy+2Iz+J` as
a homogeneous quadratic form, is symmetric, has diagonal `v 0, v 1, v 2,
v 9` (the three quadratic-term coefficients and the constant term), and
each off-diagonal entry is half the corresponding cross/linear quadric
coefficient (`2*v 3`, ..., `2*v 8`), placed symmetrically. -/
theorem quadricMatrix_props (v : Fin 10 → ℝ) :
    (∀ x y z : ℝ,
      Matrix.dotProduct ![x, y, z, 1] ((quadricMatrix v).mulVec ![x, y, z, 1]) =
        v 0 * x ^ 2 + v 1 * y ^ 2 + v 2 * z ^ 2 + 2 * v 3 * (x * y) +
          2 * v 4 * (x * z) + 2 * v 5 * (y * z) + 2 * v 6 * x + 2 * v 7 * y +
          2 * v 8 * z + v 9)
    ∧ (quadricMatrix v).transpose = quadricMatrix v
    ∧ quadricMatrix v 0 0 = v 0 ∧ quadricMatrix v 1 1 = v 1
    ∧ quadricMatrix v 2 2 = v 2 ∧ quadricMatrix v 3 3 = v 9
    ∧ quadricMatrix v 0 1 = 2 * v 3 / 2 ∧ quadricMatrix v 1 0 = 2 * v 3 / 2
    ∧ quadricMatrix v 0 2 = 2 * v 4 / 2 ∧ quadricMatrix v 2 0 = 2 * v 4 / 2
    ∧ quadricMatrix v 1 2 = 2 * v 5 / 2 ∧ quadricMatrix v 2 1 = 2 * v 5 / 2
    ∧ quadricMatrix v 0 3 = 2 * v 6 / 2 ∧ quadricMatrix v 3 0 = 2 * v 6 / 2
    ∧ quadricMatrix v 1 3 = 2 * v 7 / 2 ∧ quadricMatrix v 3 1 = 2 * v 7 / 2
    ∧ quadricMatrix v 2 3 = 2 * v 8 / 2 ∧ quadricMatrix v 3 2 = 2 * v 8 / 2 := by
  refine ⟨?_, ?_, rfl, rfl, rfl, rfl,
    (by ring : (v 3 : ℝ) = 2 * v 3 / 2), (by ring : (v 3 : ℝ) = 2 * v 3 / 2),
    (by ring : (v 4 : ℝ) = 2 * v 4 / 2), (by ring : (v 4 : ℝ) = 2 * v 4 / 2),
    (by ring : (v 5 : ℝ) = 2 * v 5 / 2), (by ring : (v 5 : ℝ) = 2 * v 5 / 2),
    (by ring : (v 6 : ℝ) = 2 * v 6 / 2), (by ring : (v 6 : ℝ) = 2 * v 6 / 2),
    (by ring : (v 7 : ℝ) = 2 * v 7 / 2), (by ring : (v 7 : ℝ) = 2 * v 7 / 2),
    (by ring : (v 8 : ℝ) = 2 * v 8 / 2), (by ring : (v 8 : ℝ) = 2 * v 8 / 2)⟩
  · intro x y z
    simp [quadricMatrix, Matrix.dotProduct, Matrix.mulVec, Fin.sum_univ_four]
    ring
  · ext i j
    fin_cases i <;> fin_cases j <;> rfl

/-- C10: the congruence `R = T * A * Tᵀ` with the translation matrix `T`
(identity with the center in the first three entries of the last row) leaves
the upper-left 3×3 quadratic block exactly unchanged, for every
coefficient vector and every center; consequently the matrix handed to
the eigendecomposition inside `fit` is exactly the 3×3 block of `A`
divided by `-R(3,3)`, where only that scalar depends on the center. -/
theorem centeredQuadric_block_invariant (v : Fin 10 → ℝ) (c : Fin 3 → ℝ) :
    quadBlock (centeredQuadric v c) = quadBlock (quadricMatrix v)
    ∧ (∀ i j : Fin 3, centeredQuadric v c i.castSucc j.castSucc
        = quadricMatrix v i.castSucc j.castSucc)
    ∧ ∀ K pts t, fitEigInput K pts t =
        Matrix.of (fun i j : Fin 3 =>
          quadricMatrix (fitV K pts t) i.castSucc j.castSucc /
            (-(fitR K pts t 3 3))) := by
  have key : ∀ (w : Fin 10 → ℝ) (d : Fin 3 → ℝ) (i j : Fin 4), i ≠ 3 → j ≠ 3 →
      centeredQuadric w d i j = quadricMatrix w i j := by
    intro w d i j hi hj
    fin_cases i <;> fin_cases j <;>
      first
      | exact absurd rfl hi
      | exact absurd rfl hj
      | (simp only [centeredQuadric, Matrix.mul_apply, Fin.sum_univ_four,
           Matrix.transpose_apply]
         simp [translationMatrix, quadricMatrix]
         try ring)
  have hcs : ∀ i : Fin 3, Fin.castSucc i ≠ (3 : Fin 4) := by decide
  refine ⟨?_, fun i j => key v c _ _ (hcs i) (hcs j), ?_⟩
  · ext i j
    exact key v c _ _ (hcs i) (hcs j)
  · intro K pts t
    ext i j
    simp only [fitEigInput, Matrix.of_apply, fitR]
    rw [key (fitV K pts t) (fitCenter K pts t) _ _ (hcs i) (hcs j)]

/-- C6: in every `fit` call, the least-squares step forms the target
vector `d2 = x²+y²+z²` over the input points, builds the normal
equations `(DᵀD) u = Dᵀd2`, and computes `u` by the SVD-based solve of
that system; provided the SVD solver kernel meets the minimum-norm
least-squares contract on this system (the exact-arithmetic behaviour of
the Eigen `bdcSvd(...).solve`, library code outside this repository), the
computed `u` is the well-defined minimum-norm solution of the normal
equations, so rank-deficient configurations yield a well-defined
solution rather than a failure. -/
theorem fit_normal_equations (K : Kernels) (pts : List Point3)
    (t : EllipsoidType)
    (h : IsMinNormLS (gramMatrix t pts) (normalRhs t pts)
      (K.svdSolve (numColumns t) (gramMatrix t pts) (normalRhs t pts))) :
    (∀ i, d2vec pts i
      = (pts.get i).x ^ 2 + (pts.get i).y ^ 2 + (pts.get i).z ^ 2)
    ∧ gramMatrix t pts = (designMatrix t pts).transpose * designMatrix t pts
    ∧ normalRhs t pts = (designMatrix t pts).transpose.mulVec (d2vec pts)
    ∧ fitU K pts t
      = K.svdSolve (numColumns t) (gramMatrix t pts) (normalRhs t pts)
    ∧ IsMinNormLS (gramMatrix t pts) (normalRhs t pts) (fitU K pts t) :=
  ⟨fun i => by simp [d2vec] ; ring, rfl, rfl, rfl, h⟩

/-- Evaluation of the C6 theorem at a concrete input: the single origin
point with the `Sphere` variant, where the right-hand side of the normal
equations is zero and the zero vector returned by the concrete kernel is
provably the minimum-norm least-squares solution. -/
theorem fit_normal_equations_witness :
    IsMinNormLS (gramMatrix EllipsoidType.Sphere witPts)
      (normalRhs EllipsoidType.Sphere witPts)
      (fitU witKernels witPts EllipsoidType.Sphere) := by
  have hb : ∀ i, normalRhs EllipsoidType.Sphere witPts i = 0 := by
    intro i
    simp [normalRhs, Matrix.mulVec, Matrix.dotProduct, d2vec, witPts]
  have hres : residSq (gramMatrix EllipsoidType.Sphere witPts)
      (normalRhs EllipsoidType.Sphere witPts) (fun _ => 0) = 0 := by
    simp [residSq, hb, Matrix.mulVec, Matrix.dotProduct]
  have hsol : IsMinNormLS (gramMatrix EllipsoidType.Sphere witPts)
      (normalRhs EllipsoidType.Sphere witPts)
      (witKernels.svdSolve (numColumns EllipsoidType.Sphere)
        (gramMatrix EllipsoidType.Sphere witPts)
        (normalRhs EllipsoidType.Sphere witPts)) := by
    constructor
    · intro w
      have hgoal : residSq (gramMatrix EllipsoidType.Sphere witPts)
          (normalRhs EllipsoidType.Sphere witPts)
          (witKernels.svdSolve (numColumns EllipsoidType.Sphere)
            (gramMatrix EllipsoidType.Sphere witPts)
            (normalRhs EllipsoidType.Sphere witPts)) = 0 := hres
      rw [hgoal]
      exact Finset.sum_nonneg fun i _ => sq_nonneg _
    · intro w _
      have hz : normSq (witKernels.svdSolve (numColumns EllipsoidType.Sphere)
          (gramMatrix EllipsoidType.Sphere witPts)
          (normalRhs EllipsoidType.Sphere witPts)) = 0 := by
        simp [normSq, witKernels]
      rw [hz]
      exact Finset.sum_nonneg fun i _ => sq_nonneg _
  exact (fit_normal_equations witKernels witPts EllipsoidType.Sphere
    hsol).2.2.2.2

/-- C8: for every kernel instantiation, every input point list — of any
length, including fewer than 9 points or the empty list, with no
validation performed — and every variant, `fit` runs to completion and
returns the complete `Parameters` value built from the computed center
and radii; the embedding is a total function with no error value and no
aborting path, mirroring the C++ routine, which contains no throw,
assert, or early return, so degenerate inputs can surface only as
non-finite or meaningless numeric values inside the returned data. -/
theorem fit_total (K : Kernels) (pts : List Point3) (t : EllipsoidType) :
    fit K pts t = { center := fitCenter K pts t, radii := fitRadii K pts t }
    ∧ (fitFull K pts t).params = fit K pts t
    ∧ fit K [] t = { center := fitCenter K [] t, radii := fitRadii K [] t } :=
  ⟨rfl, rfl, rfl⟩

/-- C9: in every `fit` call, the raw eigenvalue/eigenvector pair is
passed through the `eigenOrder::leastRotationAngle` canonicalization
before the radii are computed and before the optional outputs are
written: the optional eigenvalue/eigenvector outputs are exactly the
canonicalized pair, and `radii i` is derived from the i-th canonicalized
eigenvalue, so `radii i` and the i-th output eigenpair always correspond
to the same axis. -/
theorem fit_canonicalization (K : Kernels) (pts : List Point3)
    (t : EllipsoidType) :
    fitOrdered K pts t
      = K.order (K.eigSolve (fitEigInput K pts t)).1
          (K.eigSolve (fitEigInput K pts t)).2
    ∧ (fitFull K pts t).eigenvalues = (fitOrdered K pts t).1
    ∧ (fitFull K pts t).eigenvectors = (fitOrdered K pts t).2
    ∧ ∀ i, (fitFull K pts t).params.radii i
        = radiusOf ((fitOrdered K pts t).1 i) :=
  ⟨rfl, rfl, rfl, fun _ => rfl⟩

/-- C2 counterexample: the claim "whenever a canonicalized eigenvalue is
non-positive the corresponding radius entry is NaN" fails at the
non-positive eigenvalue `0` (IEEE `+0.0`): at line 210,
`eval.cwiseInverse().cwiseSqrt()` computes `sqrt(1/+0.0) = sqrt(+inf) =
+inf`, not NaN.  The fit-level conjuncts exhibit this through the whole
pipeline: for the single origin point with the `Sphere` variant, the
zero minimum-norm solution makes the matrix handed to the eigensolver
singular, the eigensolver kernel reports its exact eigenvalue `0`, and
the returned radius on that axis is `+∞`, not NaN. -/
theorem fit_radii_nonpositive_counterexample :
    (0 : ℝ) ≤ 0
    ∧ radiusOf 0 = XReal.posInf
    ∧ radiusOf 0 ≠ XReal.nan
    ∧ (fitFull witKernels witPts EllipsoidType.Sphere).eigenvalues 0 ≤ 0
    ∧ (fitFull witKernels witPts EllipsoidType.Sphere).params.radii 0
        ≠ XReal.nan := by
  have h0 : radiusOf 0 = XReal.posInf := by
    simp [radiusOf, ieeeInv, ieeeSqrt]
  have heval : (fitFull witKernels witPts EllipsoidType.Sphere).eigenvalues 0
      = 0 := rfl
  have hrad : (fitFull witKernels witPts EllipsoidType.Sphere).params.radii 0
      = radiusOf 0 := rfl
  refine ⟨le_refl 0, h0, ?_, le_of_eq heval, ?_⟩
  · rw [h0]
    exact fun h => XReal.noConfusion h
  · rw [hrad, h0]
    exact fun h => XReal.noConfusion h

/-- C2 (amended): for every kernel instantiation, input and variant, the
returned radii vector is the elementwise image of the canonicalized
eigenvalues under `sqrt ∘ inverse` (fit.cpp line 210): a positive
eigenvalue gives the radius `1/√eigenvalue`, a negative eigenvalue gives
NaN (returned as valid output, not raised), and an exactly-zero
eigenvalue gives `+∞`, not NaN. -/
theorem fit_radii_amended (K : Kernels) (pts : List Point3)
    (t : EllipsoidType) (i : Fin 3) :
    (fitFull K pts t).params.radii i
      = radiusOf ((fitFull K pts t).eigenvalues i)
    ∧ (∀ lam : ℝ, 0 < lam → radiusOf lam = XReal.finite (1 / Real.sqrt lam))
    ∧ (∀ lam : ℝ, lam < 0 → radiusOf lam = XReal.nan)
    ∧ (∀ lam : ℝ, lam = 0 → radiusOf lam = XReal.posInf) := by
  refine ⟨rfl, ?_, ?_, ?_⟩
  · intro lam hlam
    have hne : lam ≠ 0 := ne_of_gt hlam
    have hinv : ¬(lam⁻¹ < 0) := not_lt.mpr (le_of_lt (inv_pos.mpr hlam))
    simp [radiusOf, ieeeInv, ieeeSqrt, hne, hinv, Real.sqrt_inv, one_div]
  · intro lam hlam
    have hne : lam ≠ 0 := ne_of_lt hlam
    have hinv : lam⁻¹ < 0 := inv_lt_zero.mpr hlam
    simp [radiusOf, ieeeInv, ieeeSqrt, hne, hinv]
  · intro lam hlam
    subst hlam
    simp [radiusOf, ieeeInv, ieeeSqrt]

/-- Evaluation of the amended C2 theorem at a concrete input: kernels
whose eigensolver reports the eigenvalue `1`, the origin data point and
the `Sphere` variant, discharging each sign hypothesis at `1`, `-1` and
`0` respectively. -/
theorem fit_radii_amended_witness :
    (fitFull witKernelsOne witPts EllipsoidType.Sphere).params.radii 0
      = radiusOf 1
    ∧ radiusOf 1 = XReal.finite (1 / Real.sqrt 1)
    ∧ radiusOf (-1) = XReal.nan
    ∧ radiusOf 0 = XReal.posInf := by
  obtain ⟨h1, h2, h3, h4⟩ :=
    fit_radii_amended witKernelsOne witPts EllipsoidType.Sphere 0
  exact ⟨h1, h2 1 one_pos, h3 (-1) (by norm_num), h4 0 rfl⟩

end

end Ellipsoid
